import Mathlib

/-!
Shallow embedding of the core of the `composer` repository
(`composer_core/composer/common.py`, `composer_core/composer/composition.py`,
`composer_core/composer/compose.py`, `models/template.py`) and proofs about it.

Numeric code (Python floats) is modelled over `ℚ`; Python strings are Lean
`String`s; fallible Python code returns `PyResult`.
-/

namespace Composer

/-! ### Data model: `models/template.py` -/

/-- `LayerType` enumeration (`models/template.py`). -/
inductive LayerType where
  | PRIMARY
  | PRESENTATION
  | SECONDARY
  | ZOOM_SELECTION
  | CROP_SELECTION
deriving DecidableEq, Repr

/-- `LayerType.name` in Python: the enum member's name string. -/
def LayerType.pyName : LayerType → String
  | .PRIMARY => "PRIMARY"
  | .PRESENTATION => "PRESENTATION"
  | .SECONDARY => "SECONDARY"
  | .ZOOM_SELECTION => "ZOOM_SELECTION"
  | .CROP_SELECTION => "CROP_SELECTION"

/-- `Position = namedtuple('Position', 'x, y, z')`. -/
structure Position where
  x : ℚ
  y : ℚ
  z : ℚ
deriving DecidableEq, Repr

/-- `Size = namedtuple('Size', 'width, height')`. -/
structure Size where
  width : ℚ
  height : ℚ
deriving DecidableEq, Repr

/-- Python's `str(n)` for a natural number: decimal digit characters. -/
def decDigitChar (d : Nat) : Char := Char.ofNat (48 + d)

/-- Decimal character list of `n` (most significant digit first), `['0']` for 0. -/
def decChars (n : Nat) : List Char :=
  if n = 0 then ['0'] else ((Nat.digits 10 n).map decDigitChar).reverse

/-- Decimal string rendering of a natural number, as Python's `str`/f-string does. -/
def decString (n : Nat) : String := ⟨decChars n⟩

/-- A `Layer` (`models/template.py`).  `ord` is the per-type ordinal drawn from
the class-level `_type_counter` (`self.__inner_id`). -/
structure Layer where
  type : LayerType
  pos : Position
  size : Size
  ord : Nat
deriving DecidableEq, Repr

/-- `Layer.layer_id`: `f'layer-{self.type.name}-{self.__inner_id}'`. -/
def Layer.layer_id (l : Layer) : String :=
  "layer-" ++ l.type.pyName ++ "-" ++ decString l.ord

/-- `Layer.image_id`: `f'image-{self.type.name}-{self.__inner_id}'`. -/
def Layer.image_id (l : Layer) : String :=
  "image-" ++ l.type.pyName ++ "-" ++ decString l.ord

/-- An asset path (a `pathlib.Path` to an image file), reduced to the parts
the core reads: the stem and the suffix (extension, dot included).
`name = stem ++ suffix`. -/
structure PathA where
  stem : String
  sfx : String
deriving DecidableEq, Repr

/-- `Path.name`. -/
def PathA.name (p : PathA) : String := p.stem ++ p.sfx

/-- `CompositionItem = namedtuple('CompositionItem', 'image_path, layer')`
(`composer_core/composer/common.py`). -/
structure CompositionItem where
  image_path : PathA
  layer : Layer
deriving DecidableEq, Repr

/-! ### Geometry: `composer_core/composer/common.py` -/

/-- `Rectangle = namedtuple('Rectangle', 'width, height')`. -/
structure Rectangle where
  width : ℚ
  height : ℚ
deriving DecidableEq, Repr

/-- `min_resize(r, ratio)` from `composer_core/composer/common.py`:

    x = (r.width - r.height * ratio) / ratio
    y = (r.height - r.width * ratio) / ratio
    if abs(x) < abs(y):
        return Rectangle(r.width, r.height + x)
    return Rectangle(r.width + y, r.height)
-/
def min_resize (r : Rectangle) (ratio : ℚ) : Rectangle :=
  let x := (r.width - r.height * ratio) / ratio
  let y := (r.height - r.width * ratio) / ratio
  if |x| < |y| then
    ⟨r.width, r.height + x⟩
  else
    ⟨r.width + y, r.height⟩

/-! ### Composition entity: `composer_core/composer/composition.py` -/

/-- The Python exceptions the embedded code can raise. -/
inductive PyErr where
  | indexError          -- `IndexError` (e.g. `items[0]` on `[]`, `()[-1]`)
  | compositionError    -- `CompositionError`
  | noBaseSvgError      -- `NoBaseSvgError`
deriving DecidableEq, Repr

/-- Result of Python code that can raise. -/
inductive PyResult (α : Type) where
  | ok (a : α)
  | raise (e : PyErr)
deriving DecidableEq, Repr

/-- The counting loop of `Composition.is_valid`, with the `defaultdict(int)`
state threaded explicitly. -/
def isValidAux : List CompositionItem → (String → Nat) → Bool
  | [], _ => true
  | item :: rest, cnt =>
    let key := item.layer.layer_id
    let c := cnt key + 1
    if c > 1 then false
    else isValidAux rest (fun s => if s = key then c else cnt s)

/-- `Composition.is_valid` (`composition.py` lines 252-266): counts items per
`layer.layer_id` and returns `False` as soon as some id is seen twice. -/
def is_valid (items : List CompositionItem) : Bool :=
  isValidAux items (fun _ => 0)

/-- The predicate used by `filter_items` for the `primary_item` view. -/
def isPrimaryItem (x : CompositionItem) : Bool :=
  decide (x.layer.type = LayerType.PRIMARY)

/-- The predicate used by `filter_items` for the `presentation_item` view. -/
def isPresentationItem (x : CompositionItem) : Bool :=
  decide (x.layer.type = LayerType.PRESENTATION)

/-- The predicate used by `filter_items` for the `secondary_items` view. -/
def isSecondaryItem (x : CompositionItem) : Bool :=
  decide (x.layer.type = LayerType.SECONDARY)

/-- `Composition.primary_item` (`composition.py` lines 272-277): filters, raises
`CompositionError` when more than one match, and evaluates `items[0]`
(an `IndexError` when the filtered list is empty). -/
def primary_item (items : List CompositionItem) : PyResult CompositionItem :=
  let l := items.filter isPrimaryItem
  if l.length > 1 then .raise .compositionError
  else
    match l with
    | [] => .raise .indexError
    | a :: _ => .ok a

/-- `Composition.presentation_item` (`composition.py` lines 279-286): filters,
raises `CompositionError` when more than one match, returns `None` when none. -/
def presentation_item (items : List CompositionItem) :
    PyResult (Option CompositionItem) :=
  let l := items.filter isPresentationItem
  if l.length > 1 then .raise .compositionError
  else
    match l with
    | [] => .ok none
    | a :: _ => .ok (some a)

/-- `Composition.secondary_items` (`composition.py` lines 288-290). -/
def secondary_items (items : List CompositionItem) : List CompositionItem :=
  items.filter isSecondaryItem

/-! ### Template layer accessors (`models/template.py` lines 288-307)

`_get_layer_by_type` returns the first layer of the requested type
(`next(...)`) or `None`; `get_secondary_layers` filters. -/

def isPrimaryLayer (l : Layer) : Bool := decide (l.type = LayerType.PRIMARY)

def isPresentationLayer (l : Layer) : Bool := decide (l.type = LayerType.PRESENTATION)

def isSecondaryLayer (l : Layer) : Bool := decide (l.type = LayerType.SECONDARY)

def get_primary_layer (layers : List Layer) : Option Layer :=
  layers.find? isPrimaryLayer

def get_presentation_layer (layers : List Layer) : Option Layer :=
  layers.find? isPresentationLayer

def get_secondary_layers (layers : List Layer) : List Layer :=
  layers.filter isSecondaryLayer

/-! ### The generator: `CompositionBuilder` (`composition.py` lines 395-485)

`itertools.permutations` and `itertools.combinations` are embedded as list
functions with the library's semantics (position-based, order preserved). -/

/-- All ways to pick one element out of a list, returning it with the list of
the remaining elements (order preserved). -/
def removeOne : List α → List (α × List α)
  | [] => []
  | a :: as => (a, as) :: (removeOne as).map (fun p => (p.1, a :: p.2))

/-- `itertools.permutations(l, k)`: every length-`k` sequence of elements of
`l` taken at pairwise-distinct positions. -/
def permutations : Nat → List α → List (List α)
  | 0, _ => [[]]
  | k + 1, l => (removeOne l).flatMap (fun p => (permutations k p.2).map (p.1 :: ·))

/-- `itertools.combinations(l, k)`: every length-`k` subsequence of `l`
(positions strictly increasing). -/
def combinations : Nat → List α → List (List α)
  | 0, _ => [[]]
  | _ + 1, [] => []
  | k + 1, a :: as => ((combinations k as).map (a :: ·)) ++ combinations (k + 1) as

/-- `CompositionBuilder.build_primary_items`: `product(primaries, [primary_layer])`.
Templates without a primary layer (where the source would bind the layer
`None`) are not modelled; the theorems assume the layer exists. -/
def build_primary_items (layers : List Layer) (primaries : List PathA) :
    List CompositionItem :=
  match get_primary_layer layers with
  | some pl => primaries.map (fun p => ⟨p, pl⟩)
  | none => []

/-- `CompositionBuilder.build_presentation_items`. -/
def build_presentation_items (layers : List Layer) (presentations : List PathA) :
    List CompositionItem :=
  match get_presentation_layer layers with
  | some pl => presentations.map (fun p => ⟨p, pl⟩)
  | none => []

/-- `CompositionBuilder.build_secondary_items` (`composition.py` lines 476-485):
a single flat stream — for each permutation of `len(secondary_layers)`
secondaries, one item per `zip(permutation, secondary_layers)` pair. -/
def build_secondary_items (layers : List Layer) (secondaries : List PathA) :
    List CompositionItem :=
  let secondary_layers := get_secondary_layers layers
  (permutations secondary_layers.length secondaries).flatMap
    (fun combo => List.zipWith (fun p l => (⟨p, l⟩ : CompositionItem)) combo secondary_layers)

/-- `CompositionBuilder.compose` (`composition.py` lines 415-458).  The two
configuration reads `settings.include_presentation_items` /
`settings.include_secondary_items` are parameters.  Python's
`if presentation_items:` / `if secondary_items:` test the *generator object*,
which is truthy whenever the corresponding branch created it, hence the
`Option` here.  Each yielded `Composition`'s item list is returned. -/
def compose (include_presentation_items include_secondary_items : Bool)
    (layers : List Layer) (primaries secondaries presentations : List PathA) :
    List (List CompositionItem) :=
  let primary_items := build_primary_items layers primaries
  let presentation_items : Option (List CompositionItem) :=
    if include_presentation_items then some (build_presentation_items layers presentations)
    else none
  let secondary_stream : Option (List CompositionItem) :=
    if include_secondary_items then some (build_secondary_items layers secondaries)
    else none
  let primary_presentation_combos : List (List CompositionItem) :=
    match presentation_items with
    | some pres => primary_items.flatMap (fun pi => pres.map (fun pr => [pi, pr]))
    | none => primary_items.map (fun pi => [pi])
  let secondary_combos : List (Option (List CompositionItem)) :=
    match secondary_stream with
    | some sec => (combinations (get_secondary_layers layers).length sec).map some
    | none => [none]
  primary_presentation_combos.flatMap (fun pp =>
    secondary_combos.map (fun sc =>
      match sc with
      | some s => if s.length > 0 then pp ++ s else pp
      | none => pp))

/-! ### Render file-system effect: tail of `compose` (`compose.py` lines 111-170) -/

/-- A file system: maps a path to its content when the file exists. -/
def FS : Type := PathA → Option String

def fsWrite (fs : FS) (p : PathA) (content : String) : FS :=
  fun q => if q = p then some content else fs q

def fsUnlink (fs : FS) (p : PathA) : FS :=
  fun q => if q = p then none else fs q

/-- Observable outcome of one `compose(...)` call: the resulting file system,
how many times the svg was rasterized, and the returned path. -/
structure ComposeOutcome where
  fs : FS
  rasterizations : Nat
  returned : PathA

/-- File-system effect of `compose` (`compose.py` lines 111-170): the
intermediate svg file is written, the svg is rasterized (exactly once,
`wand_img.Image(filename=...)`), then
`if options.override_images and output_file_path.exists(): unlink()`,
and `image.save(filename=...)` writes the destination unconditionally;
the destination path is returned. -/
def composeWrite (override_images : Bool) (dest svgDest : PathA)
    (svgContent rasterContent : String) (fs0 : FS) : ComposeOutcome :=
  let fs1 := fsWrite fs0 svgDest svgContent
  let fs2 := if override_images && (fs1 dest).isSome then fsUnlink fs1 dest else fs1
  let fs3 := fsWrite fs2 dest rasterContent
  ⟨fs3, 1, dest⟩

/-! ### Output naming: `compute_output_name` (`composition.py` lines 488-565) -/

/-- `despeluze_item_name`: the file name with every occurrence of the
extension removed (`item_name.replace(item_name_ext, '')`). -/
def despeluze_item_name (p : PathA) : String :=
  p.name.replace p.sfx ""

/-- Result of a successful `re.match`: `group()` (the whole match) and
`groups()` (the tuple of capture groups, possibly empty). -/
structure MatchRes where
  whole : String
  groups : List String
deriving DecidableEq, Repr

/-- A matcher standing for `re.match(pattern, ·)`: `none` means no match. -/
def Matcher : Type := String → Option MatchRes

/-- The matcher of the default pattern `'.*'`: always matches, whole match is
the input, zero capture groups. -/
def dotStarMatcher : Matcher := fun s => some ⟨s, []⟩

/-- `Path(s).suffix` on the result string. -/
def pathSuffixOf (s : String) : String :=
  match s.splitOn "." with
  | [] => ""
  | [_] => ""
  | parts => "." ++ parts.getLastD ""

/-- The secondary part of `compute_output_name`: per secondary item, stem
before the first `_`, matched against the secondary pattern; matches are
collected, non-matches skipped (with a warning). -/
def secondaryCodes (secondary_product_code_pattern : Matcher)
    (items : List CompositionItem) : List String :=
  ((secondary_items items).map
      (fun it => ((despeluze_item_name it.image_path).splitOn "_").headD "")).filterMap
    (fun s => (secondary_product_code_pattern s).map (fun m => m.whole))

/-- The tail of `compute_output_name`: joins the non-empty components with
`_`, appends the extension, and optionally splices the background stem in
before the extension. -/
def assembleName (main pres : String) (secs : List String) (extension : String)
    (append_bg_name_as_suffix : Bool) (background : PathA) : String :=
  let name_components :=
    [main, pres, String.intercalate "_" secs].filter (fun x => decide (x ≠ ""))
  let result := String.intercalate "_" name_components ++ "." ++ extension
  if append_bg_name_as_suffix then
    let bg_name := background.name.replace background.sfx ""
    let sfx := pathSuffixOf result
    result.replace sfx ("." ++ bg_name ++ sfx)
  else result

/-- `compute_output_name` (`composition.py` lines 498-565); the three regex
patterns are abstracted as matchers.  The primary code uses
`match.group()`; the presentation code uses `match.groups()[-1]`, which on a
pattern with zero capture groups indexes an empty tuple — an `IndexError`. -/
def compute_output_name (items : List CompositionItem) (background : PathA)
    (extension : String)
    (primary_product_code_pattern presentation_code_pattern
      secondary_product_code_pattern : Matcher)
    (append_bg_name_as_suffix : Bool) : PyResult String :=
  match primary_item items with
  | .raise e => .raise e
  | .ok pit =>
    let main0 := ((despeluze_item_name pit.image_path).splitOn "_").headD ""
    let main_product_name :=
      match primary_product_code_pattern main0 with
      | some m => m.whole
      | none => ""
    match presentation_item items with
    | .raise e => .raise e
    | .ok pres =>
      let presentation_name0 :=
        match pres with
        | some it => despeluze_item_name it.image_path
        | none => ""
      match presentation_code_pattern presentation_name0 with
      | some m =>
        match m.groups.getLast? with
        | none => .raise .indexError
        | some g =>
          .ok (assembleName main_product_name g
            (secondaryCodes secondary_product_code_pattern items) extension
            append_bg_name_as_suffix background)
      | none =>
        .ok (assembleName main_product_name ""
          (secondaryCodes secondary_product_code_pattern items) extension
          append_bg_name_as_suffix background)

/-- The presentation-name component fed to the presentation pattern
(`composition.py` lines 519-522), for stating C10. -/
def presentationNameOf (items : List CompositionItem) : String :=
  match presentation_item items with
  | .ok (some it) => despeluze_item_name it.image_path
  | _ => ""

/-! ### Concrete sample values (used by witnesses and counterexamples) -/

def pos0 : Position := ⟨0, 0, 0⟩

def size0 : Size := ⟨100, 100⟩

def layPrim : Layer := ⟨.PRIMARY, pos0, size0, 0⟩

def layPres : Layer := ⟨.PRESENTATION, pos0, size0, 0⟩

def laySec0 : Layer := ⟨.SECONDARY, pos0, size0, 0⟩

def laySec1 : Layer := ⟨.SECONDARY, pos0, size0, 1⟩

def pathP1 : PathA := ⟨"P1_img", ".png"⟩

def pathR1 : PathA := ⟨"ABC-123-xyz", ".png"⟩

def pathS1 : PathA := ⟨"S1_img", ".png"⟩

def pathS2 : PathA := ⟨"S2_img", ".png"⟩

/-- A template with one PRIMARY, one PRESENTATION and two SECONDARY layers. -/
def tplC1 : List Layer := [layPrim, layPres, laySec0, laySec1]

/-! ### Template lifecycle (`models/template.py`) -/

/-- The `__base_svg` built by `set_background`: an `svgutils` Figure of the
given size holding the background image path. -/
structure BaseSvg where
  width : ℚ
  height : ℚ
  path : PathA
deriving DecidableEq, Repr

/-- The markup snippet one layer renders to (`Layer.XML_REPR` /
`SelectionLayer.XML_REPR`): selection layers use the `selection_layer` tag,
content layers the `g` tag; both carry the `layer_id`, one image element with
the `image_id`, and the position/size attributes. -/
structure LayerXml where
  selectionTag : Bool
  gid : String
  iid : String
  x : ℚ
  y : ℚ
  w : ℚ
  h : ℚ
deriving DecidableEq, Repr

/-- `Layer.xml`: the snippet rendered from a layer's current state.  A layer
is a `SelectionLayer` exactly when `add_layer` dispatched on a selection
type. -/
def Layer.xml (l : Layer) : LayerXml :=
  ⟨decide (l.type = .ZOOM_SELECTION ∨ l.type = .CROP_SELECTION),
    l.layer_id, l.image_id, l.pos.x, l.pos.y, l.size.width, l.size.height⟩

/-- A rendered markup document: the base svg with every layer snippet spliced
in insertion order immediately before the closing root tag
(`__inject_layer` replaces `</svg>` by `layer.xml + </svg>`). -/
structure Markup where
  base : BaseSvg
  injected : List LayerXml
deriving DecidableEq, Repr

/-- Process state of one template session: the class-level `_type_counter`
map (shared per process in the source; one template's session is modelled)
plus the `Template` instance fields. -/
structure TState where
  counters : LayerType → Nat
  layers : List Layer
  background : Option PathA
  loadedFromFile : Bool
  strRepr : Option Markup
  baseSvg : Option BaseSvg

/-- A fresh process with an empty template (`Template.__init__`). -/
def initTState : TState :=
  ⟨fun _ => 0, [], none, false, none, none⟩

/-- `Template.add_layer` (`template.py` lines 190-208).  CROP/ZOOM selection
types dispatch to `_add_selection_layer`; both paths raise `NoBaseSvgError`
when `__base_svg is None and not __loaded_from_file`, and otherwise construct
a `Layer` (drawing the next per-type ordinal from `_type_counter`) and append
it. -/
def add_layer (st : TState) (pos : Position) (size : Size) (t : LayerType) :
    PyResult (Layer × TState) :=
  if t = .CROP_SELECTION ∨ t = .ZOOM_SELECTION then
    if st.baseSvg.isNone && !st.loadedFromFile then .raise .noBaseSvgError
    else
      let layer : Layer := ⟨t, pos, size, st.counters t⟩
      .ok (layer,
        { st with
          counters := fun t' => if t' = t then st.counters t + 1 else st.counters t'
          layers := st.layers ++ [layer] })
  else
    if st.baseSvg.isNone && !st.loadedFromFile then .raise .noBaseSvgError
    else
      let layer : Layer := ⟨t, pos, size, st.counters t⟩
      .ok (layer,
        { st with
          counters := fun t' => if t' = t then st.counters t + 1 else st.counters t'
          layers := st.layers ++ [layer] })

/-- `Template.set_background` (`template.py` lines 341-357): `__background`
is assigned only when the path exists and is a file; `__base_svg` is set to
a Figure of the given size (default 1500×1500) regardless. -/
def set_background (st : TState) (p : PathA) (size : Option Size)
    (pathExistsIsFile : Bool) : TState :=
  let sz := size.getD ⟨1500, 1500⟩
  { st with
    background := if pathExistsIsFile then some p else st.background
    baseSvg := some ⟨sz.width, sz.height, p⟩ }

/-- `Template.remove_background` (`template.py` lines 359-361). -/
def remove_background (st : TState) : TState :=
  { st with background := none, baseSvg := none }

/-- `Template.remove_layer_for_item` (`template.py` lines 241-243): removes
the mapped layer object from `__layers`; the layer to remove is given by its
index in the current list. -/
def remove_layer (st : TState) (idx : Nat) : TState :=
  { st with layers := st.layers.eraseIdx idx }

/-- `Template.__build_svg_final_figure` (`template.py` lines 245-256). -/
def build_svg_final_figure (baseSvg : Option BaseSvg) (layers : List Layer) :
    PyResult Markup :=
  match baseSvg with
  | none => .raise .noBaseSvgError
  | some b => .ok ⟨b, layers.map Layer.xml⟩

/-- `Template.render_to_bytes` (`template.py` lines 324-339): returns the
memoized `__str_representation` when present; otherwise builds the final
figure (raising `NoBaseSvgError` without a base svg), caches the (non-empty)
result and returns it. -/
def render_to_bytes (st : TState) : PyResult (Markup × TState) :=
  match st.strRepr with
  | some m => .ok (m, st)
  | none =>
    match build_svg_final_figure st.baseSvg st.layers with
    | .raise e => .raise e
    | .ok m => .ok (m, { st with strRepr := some m })

/-- One session operation on the template. -/
inductive TOp where
  | addLayer (pos : Position) (size : Size) (t : LayerType)
  | removeLayer (idx : Nat)
  | setBackground (p : PathA) (size : Option Size) (pathExistsIsFile : Bool)
  | removeBackground

/-- One step: a failed `add_layer` leaves the state unchanged (the exception
propagates to the caller); a successful one reports the created layer. -/
def stepOp (st : TState) : TOp → TState × Option Layer
  | .addLayer pos size t =>
    match add_layer st pos size t with
    | .ok (l, st') => (st', some l)
    | .raise _ => (st, none)
  | .removeLayer idx => (remove_layer st idx, none)
  | .setBackground p size e => (set_background st p size e, none)
  | .removeBackground => (remove_background st, none)

/-- Runs a session, collecting every `Layer` ever constructed. -/
def runOps (st : TState) : List TOp → TState × List Layer
  | [] => (st, [])
  | op :: ops =>
    let s1 := stepOp st op
    let s2 := runOps s1.1 ops
    (s2.1, s1.2.toList ++ s2.2)

/-- A template state with a background set (used by witnesses). -/
def stBg : TState := set_background initTState ⟨"bg", ".png"⟩ none true

/-- The markup cached by the first `render_to_bytes` call on `stBg`. -/
def mC8 : Markup := ⟨⟨1500, 1500, ⟨"bg", ".png"⟩⟩, []⟩

/-- `stBg` after that first `render_to_bytes` call cached `mC8`. -/
def stC8b : TState := { stBg with strRepr := some mC8 }

/-- `stC8b` after `add_layer(pos0, size0, PRIMARY)`. -/
def stC8c : TState :=
  { stC8b with
    counters := fun t' =>
      if t' = LayerType.PRIMARY then stC8b.counters LayerType.PRIMARY + 1
      else stC8b.counters t'
    layers := stC8b.layers ++ [⟨LayerType.PRIMARY, pos0, size0,
      stC8b.counters LayerType.PRIMARY⟩] }

end Composer

namespace Composer

/-! ### Proof support for `min_resize` -/

/-- Both branches of `min_resize` keep one dimension and change the other. -/
theorem min_resize_cases (r : Rectangle) (ratio : ℚ) :
    min_resize r ratio = ⟨r.width, r.height + (r.width - r.height * ratio) / ratio⟩ ∨
    min_resize r ratio = ⟨r.width + (r.height - r.width * ratio) / ratio, r.height⟩ := by
  unfold min_resize
  dsimp only
  split
  · exact Or.inl rfl
  · exact Or.inr rfl

theorem min_resize_fixed_of_width_eq (r : Rectangle) (ratio : ℚ)
    (h : r.width = r.height * ratio) : min_resize r ratio = r := by
  unfold min_resize
  dsimp only
  have hx : (r.width - r.height * ratio) / ratio = 0 := by
    rw [h]; simp
  split
  · next hlt =>
      rw [hx]
      cases r
      simp
  · next hge =>
      rw [hx] at hge
      simp only [abs_zero] at hge
      have h0 : |(r.height - r.width * ratio) / ratio| = 0 :=
        le_antisymm (not_lt.mp hge) (abs_nonneg _)
      have : (r.height - r.width * ratio) / ratio = 0 := abs_eq_zero.mp h0
      rw [this]
      cases r
      simp

theorem min_resize_fixed_of_height_eq (r : Rectangle) (ratio : ℚ)
    (h : r.height = r.width * ratio) : min_resize r ratio = r := by
  unfold min_resize
  dsimp only
  have hy : (r.height - r.width * ratio) / ratio = 0 := by
    rw [h]; simp
  split
  · next hlt =>
      rw [hy] at hlt
      simp only [abs_zero] at hlt
      exact absurd hlt (not_lt.mpr (abs_nonneg _))
  · next hge =>
      rw [hy]
      cases r
      simp

end Composer

namespace Composer

/-! ### Claims C4 and C5: `min_resize` -/

/-- Claim C4 (code bug witness): on the rectangle `(width 1, height 4)` with
target width/height ratio `2` (all positive), `min_resize` takes the
width-adjusting branch and returns `(2, 4)`, whose width/height ratio is
`1/2`, not the target `2`; so the returned rectangle does not satisfy the
target ratio, contradicting the claim (the width-delta formula
`(height - width*ratio)/ratio` in the source is `height/ratio - width`
instead of the `height*ratio - width` that the target ratio requires). -/
theorem min_resize_eq_width_branch (r : Rectangle) (ratio : ℚ)
    (h : ¬ (|(r.width - r.height * ratio) / ratio| <
            |(r.height - r.width * ratio) / ratio|)) :
    min_resize r ratio = ⟨r.width + (r.height - r.width * ratio) / ratio, r.height⟩ := by
  unfold min_resize
  dsimp only
  rw [if_neg h]

theorem c4_min_resize_wrong_ratio :
    min_resize ⟨1, 4⟩ 2 = ⟨2, 4⟩ ∧
    (min_resize ⟨1, 4⟩ 2).width ≠ (min_resize ⟨1, 4⟩ 2).height * 2 := by
  have habs1 : |(((⟨1, 4⟩ : Rectangle)).width - ((⟨1, 4⟩ : Rectangle)).height * 2) / 2| = 7/2 := by
    show |((1 : ℚ) - 4 * 2) / 2| = 7/2
    rw [show ((1 : ℚ) - 4 * 2) / 2 = -(7/2) by norm_num, abs_neg, abs_of_nonneg]
    norm_num
  have habs2 : |(((⟨1, 4⟩ : Rectangle)).height - ((⟨1, 4⟩ : Rectangle)).width * 2) / 2| = 1 := by
    show |((4 : ℚ) - 1 * 2) / 2| = 1
    rw [show ((4 : ℚ) - 1 * 2) / 2 = (1 : ℚ) by norm_num, abs_of_nonneg]
    norm_num
  have hbr := min_resize_eq_width_branch ⟨1, 4⟩ 2 (by rw [habs1, habs2]; norm_num)
  rw [hbr]
  constructor
  · show Rectangle.mk ((1 : ℚ) + ((4 : ℚ) - 1 * 2) / 2) 4 = ⟨2, 4⟩
    norm_num
  · show (1 : ℚ) + ((4 : ℚ) - 1 * 2) / 2 ≠ (4 : ℚ) * 2
    norm_num

/-- Claim C5: a rectangle already at the target width/height ratio
(`width = height * ratio`) is returned unchanged, and `min_resize` is
idempotent: applying it twice equals applying it once (over exact rational
arithmetic, for any nonzero ratio). -/
theorem c5_min_resize_idempotent (r : Rectangle) (ratio : ℚ) (hratio : ratio ≠ 0) :
    (r.width = r.height * ratio → min_resize r ratio = r) ∧
    min_resize (min_resize r ratio) ratio = min_resize r ratio := by
  refine ⟨fun h => min_resize_fixed_of_width_eq r ratio h, ?_⟩
  rcases min_resize_cases r ratio with h | h
  · rw [h]
    apply min_resize_fixed_of_width_eq
    show r.width = (r.height + (r.width - r.height * ratio) / ratio) * ratio
    field_simp
  · rw [h]
    apply min_resize_fixed_of_height_eq
    show r.height = (r.width + (r.height - r.width * ratio) / ratio) * ratio
    field_simp

/-- Witness for C5 at the concrete rectangle `(6, 3)` and ratio `2`. -/
theorem c5_min_resize_idempotent_witness :
    min_resize ⟨6, 3⟩ 2 = ⟨6, 3⟩ ∧
    min_resize (min_resize ⟨6, 3⟩ 2) 2 = min_resize ⟨6, 3⟩ 2 := by
  have h := c5_min_resize_idempotent ⟨6, 3⟩ 2 (by norm_num)
  exact ⟨h.1 (by norm_num), h.2⟩

/-! ### Claim C3: `is_valid` -/

theorem isValidAux_iff :
    ∀ (l : List CompositionItem) (cnt : String → Nat),
      isValidAux l cnt = true ↔
        ((l.map fun i => i.layer.layer_id).Nodup ∧
          ∀ s ∈ l.map fun i => i.layer.layer_id, cnt s = 0) := by
  intro l
  induction l with
  | nil => intro cnt; simp [isValidAux]
  | cons item rest ih =>
    intro cnt
    by_cases hk : cnt item.layer.layer_id = 0
    · have hcond : ¬ (cnt item.layer.layer_id + 1 > 1) := by omega
      rw [show isValidAux (item :: rest) cnt
            = isValidAux rest
                (fun s => if s = item.layer.layer_id
                  then cnt item.layer.layer_id + 1 else cnt s) from by
        simp only [isValidAux]
        rw [if_neg hcond]]
      rw [ih]
      simp only [List.map_cons, List.nodup_cons, List.mem_cons]
      constructor
      · rintro ⟨hnd, hall⟩
        have hkey : item.layer.layer_id ∉ rest.map fun i => i.layer.layer_id := by
          intro hmem
          have h2 := hall _ hmem
          rw [if_pos rfl] at h2
          omega
        refine ⟨⟨hkey, hnd⟩, ?_⟩
        intro s hs
        rcases hs with hs | hs
        · rw [hs]; exact hk
        · have h2 := hall s hs
          by_cases hsk : s = item.layer.layer_id
          · exact absurd (hsk ▸ hs) hkey
          · rwa [if_neg hsk] at h2
      · rintro ⟨⟨hkey, hnd⟩, hall⟩
        refine ⟨hnd, ?_⟩
        intro s hs
        have hsk : s ≠ item.layer.layer_id := fun h => hkey (h ▸ hs)
        rw [if_neg hsk]
        exact hall s (Or.inr hs)
    · have hcond : cnt item.layer.layer_id + 1 > 1 := by omega
      rw [show isValidAux (item :: rest) cnt = false from by
        simp only [isValidAux]
        rw [if_pos hcond]]
      simp only [List.map_cons, List.mem_cons]
      constructor
      · intro h; exact absurd h (by simp)
      · rintro ⟨-, hall⟩
        exact absurd (hall _ (Or.inl rfl)) hk

/-- Claim C3: `is_valid()` is true iff no two items reference the same
`layer.layer_id` (the mapped list of layer ids has no duplicate); in
particular a composition holding two items bound to the same SECONDARY
layer instance is invalid. -/
theorem c3_is_valid_iff (items : List CompositionItem) :
    (is_valid items = true ↔ (items.map fun i => i.layer.layer_id).Nodup) ∧
    (∀ (l1 l2 l3 : List CompositionItem) (a b : CompositionItem),
      items = l1 ++ a :: (l2 ++ b :: l3) → a.layer = b.layer →
      a.layer.type = LayerType.SECONDARY → is_valid items = false) := by
  have hbase : is_valid items = true ↔
      (items.map fun i => i.layer.layer_id).Nodup := by
    rw [is_valid, isValidAux_iff]
    simp
  refine ⟨hbase, ?_⟩
  intro l1 l2 l3 a b heq hlayer _htype
  have hid : a.layer.layer_id = b.layer.layer_id := by rw [hlayer]
  cases hval : is_valid items with
  | false => rfl
  | true =>
    exfalso
    have hnd := hbase.mp hval
    have hsub : [a, b].Sublist items := by
      rw [heq]
      have h1 : [b].Sublist (b :: l3) := (List.nil_sublist l3).cons₂ b
      have h2 : [b].Sublist (l2 ++ b :: l3) :=
        h1.trans (List.sublist_append_right l2 (b :: l3))
      have h3 : [a, b].Sublist (a :: (l2 ++ b :: l3)) := h2.cons₂ a
      exact h3.trans (List.sublist_append_right l1 _)
    have hnd2 : ([a, b].map fun i => i.layer.layer_id).Nodup :=
      (hsub.map fun i => i.layer.layer_id).nodup hnd
    simp only [List.map_cons, List.map_nil, List.nodup_cons] at hnd2
    exact hnd2.1 (by simp [hid])

/-- Witness for C3: a two-item composition with both items bound to the same
SECONDARY layer instance is invalid. -/
theorem c3_is_valid_iff_witness :
    is_valid [⟨pathS1, laySec0⟩, ⟨pathS2, laySec0⟩] = false :=
  (c3_is_valid_iff [⟨pathS1, laySec0⟩, ⟨pathS2, laySec0⟩]).2
    [] [] [] ⟨pathS1, laySec0⟩ ⟨pathS2, laySec0⟩ rfl rfl rfl

/-! ### Claim C7: `primary_item` -/

/-- Claim C7 (amended): `primary_item` raises `IndexError` (it evaluates
`items[0]` on an empty list, rather than returning absence) exactly when no
item is bound to a PRIMARY layer; it raises the multiple-primary
`CompositionError` exactly when more than one item is bound to a PRIMARY
layer; and a returned item is an item of the composition bound to a PRIMARY
layer. -/
theorem c7_primary_item_cases (items : List CompositionItem) :
    (primary_item items = .raise .indexError ↔
      ∀ i ∈ items, i.layer.type ≠ LayerType.PRIMARY) ∧
    (primary_item items = .raise .compositionError ↔
      1 < (items.filter isPrimaryItem).length) ∧
    (∀ a, primary_item items = .ok a →
      a ∈ items ∧ a.layer.type = LayerType.PRIMARY) := by
  have hnil : items.filter isPrimaryItem = [] ↔
      ∀ i ∈ items, i.layer.type ≠ LayerType.PRIMARY := by
    rw [List.filter_eq_nil_iff]
    constructor
    · intro h i hi
      have := h i hi
      simpa [isPrimaryItem] using this
    · intro h i hi
      simp only [isPrimaryItem, decide_eq_true_eq]
      exact h i hi
  unfold primary_item
  by_cases hlen : (items.filter isPrimaryItem).length > 1
  · rw [if_pos hlen]
    refine ⟨?_, by simp [hlen], by simp⟩
    constructor
    · intro h
      exact absurd h (by simp)
    · intro hall
      have h0 : items.filter isPrimaryItem = [] := hnil.mpr hall
      rw [h0] at hlen
      simp at hlen
  · rw [if_neg hlen]
    cases hfil : items.filter isPrimaryItem with
    | nil =>
      refine ⟨by simpa [hfil] using hnil, by simp, by simp⟩
    | cons a t =>
      have hmem : a ∈ items.filter isPrimaryItem := by
        rw [hfil]
        exact List.mem_cons_self _ _
      rw [List.mem_filter] at hmem
      have haty : a.layer.type = LayerType.PRIMARY := by
        simpa [isPrimaryItem] using hmem.2
      refine ⟨?_, ?_, ?_⟩
      · simp only [List.length_cons]
        constructor
        · intro h
          exact absurd h (by simp)
        · intro hall
          exact absurd haty (hall a hmem.1)
      · simp only [List.length_cons]
        constructor
        · intro h
          exact absurd h (by simp)
        · intro h
          rw [hfil] at hlen
          simp only [List.length_cons] at hlen
          omega
      · intro x hx
        simp only [PyResult.ok.injEq] at hx
        subst hx
        exact ⟨hmem.1, haty⟩

/-- Witness for C7 on a concrete one-primary composition. -/
theorem c7_primary_item_cases_witness :
    (⟨pathP1, layPrim⟩ : CompositionItem) ∈ [(⟨pathP1, layPrim⟩ : CompositionItem)] ∧
    (⟨pathP1, layPrim⟩ : CompositionItem).layer.type = LayerType.PRIMARY :=
  (c7_primary_item_cases [⟨pathP1, layPrim⟩]).2.2 ⟨pathP1, layPrim⟩ rfl

/-- Counterexample for C7 as stated: on a composition with zero items bound
to a PRIMARY layer, `primary_item` raises `IndexError` instead of yielding
absence without failing. -/
theorem c7_primary_item_empty_raises :
    primary_item [] = .raise .indexError := rfl

end Composer

namespace Composer

/-! ### Claim C2: overwrite behaviour of `compose` -/

/-- Claim C2 (code bug witness): with `override_images = false` and the
destination already existing with content `"old"`, `compose` still
rasterizes (exactly once, not zero times) and overwrites the destination
with the new render; the claimed idempotent skip does not exist in the code
(`compose.py` line 165 only unlinks when `override_images` is true, and
`image.save` then writes unconditionally). -/
theorem c2_compose_overwrites_existing :
    (composeWrite false ⟨"out", ".webp"⟩ ⟨"out", ".svg"⟩ "svg-bytes" "new-render"
        (fun q => if q = ⟨"out", ".webp"⟩ then some "old" else none)).fs ⟨"out", ".webp"⟩
      = some "new-render" ∧
    (composeWrite false ⟨"out", ".webp"⟩ ⟨"out", ".svg"⟩ "svg-bytes" "new-render"
        (fun q => if q = ⟨"out", ".webp"⟩ then some "old" else none)).rasterizations = 1 ∧
    some "new-render" ≠ some "old" := by
  refine ⟨?_, rfl, by decide⟩
  simp [composeWrite, fsWrite]

/-! ### Claim C10: `compute_output_name` with a zero-group presentation pattern -/

theorem primary_item_of_le_one (items : List CompositionItem)
    (h : (items.filter isPrimaryItem).length ≤ 1) :
    primary_item items = .raise .indexError ∨ ∃ a, primary_item items = .ok a := by
  unfold primary_item
  dsimp only
  rw [if_neg (by omega)]
  cases items.filter isPrimaryItem with
  | nil => exact Or.inl rfl
  | cons a t => exact Or.inr ⟨a, rfl⟩

theorem presentation_item_of_le_one (items : List CompositionItem)
    (h : (items.filter isPresentationItem).length ≤ 1) :
    ∃ o, presentation_item items = .ok o := by
  unfold presentation_item
  dsimp only
  rw [if_neg (by omega)]
  cases items.filter isPresentationItem with
  | nil => exact ⟨none, rfl⟩
  | cons a t => exact ⟨some a, rfl⟩

/-- Claim C10: on any composition with at most one primary-bound and at most
one presentation-bound item, whenever the presentation code pattern matches
the presentation name component (which is the empty string when no
presentation item is bound) but produces zero capture groups,
`compute_output_name` raises an `IndexError` (`groups()[-1]` on an empty
tuple) instead of returning a name.  (With zero primary items the function
raises the `items[0]` `IndexError` even earlier.) -/
theorem c10_compute_output_name_indexError
    (items : List CompositionItem) (background : PathA) (extension : String)
    (primary_pat presentation_pat secondary_pat : Matcher)
    (append_bg : Bool) (w : String)
    (hprim : (items.filter isPrimaryItem).length ≤ 1)
    (hpres : (items.filter isPresentationItem).length ≤ 1)
    (hmatch : presentation_pat (presentationNameOf items) = some ⟨w, []⟩) :
    compute_output_name items background extension primary_pat presentation_pat
      secondary_pat append_bg = .raise .indexError := by
  rcases primary_item_of_le_one items hprim with hpi | ⟨a, hpi⟩
  · unfold compute_output_name
    rw [hpi]
  · obtain ⟨o, hpo⟩ := presentation_item_of_le_one items hpres
    unfold compute_output_name
    rw [hpi, hpo]
    dsimp only
    cases o with
    | none =>
      have hnm : presentationNameOf items = "" := by
        unfold presentationNameOf
        rw [hpo]
      rw [hnm] at hmatch
      dsimp only
      rw [hmatch]
      rfl
    | some it =>
      have hnm : presentationNameOf items = despeluze_item_name it.image_path := by
        unfold presentationNameOf
        rw [hpo]
      rw [hnm] at hmatch
      dsimp only
      rw [hmatch]
      rfl

/-- Witness for C10: a composition with one primary item and no presentation
item, under the default `'.*'` presentation pattern (zero capture groups),
makes `compute_output_name` raise `IndexError`. -/
theorem c10_compute_output_name_indexError_witness :
    compute_output_name [⟨pathP1, layPrim⟩] ⟨"bg", ".png"⟩ "webp"
      dotStarMatcher dotStarMatcher dotStarMatcher false = .raise .indexError :=
  c10_compute_output_name_indexError [⟨pathP1, layPrim⟩] ⟨"bg", ".png"⟩ "webp"
    dotStarMatcher dotStarMatcher dotStarMatcher false "" (by decide) (by decide) rfl

/-! ### Claim C1: generator cardinality -/

theorem length_flatMap_const {α β : Type _} (l : List α) (f : α → List β) (c : ℕ)
    (h : ∀ a ∈ l, (f a).length = c) : (l.flatMap f).length = l.length * c := by
  induction l with
  | nil => simp
  | cons a t ih =>
    have ha : (f a).length = c := h a (List.mem_cons_self a t)
    have ht : ∀ x ∈ t, (f x).length = c := fun x hx => h x (List.mem_cons_of_mem a hx)
    simp only [List.flatMap_cons, List.length_append, List.length_cons, ih ht, ha]
    ring

theorem removeOne_length {α : Type _} (l : List α) :
    (removeOne l).length = l.length := by
  induction l with
  | nil => rfl
  | cons a t ih => simp [removeOne, ih]

theorem mem_removeOne_rest_length {α : Type _} (l : List α) :
    ∀ p ∈ removeOne l, p.2.length + 1 = l.length := by
  induction l with
  | nil => intro p hp; simp [removeOne] at hp
  | cons a t ih =>
    intro p hp
    simp only [removeOne, List.mem_cons, List.mem_map] at hp
    rcases hp with rfl | ⟨q, hq, rfl⟩
    · simp
    · have := ih q hq
      simp only [List.length_cons]
      omega

theorem permutations_length {α : Type _} (k : Nat) :
    ∀ l : List α, (permutations k l).length = l.length.descFactorial k := by
  induction k with
  | zero => intro l; simp [permutations]
  | succ k ih =>
    intro l
    have hconst : ∀ p ∈ removeOne l,
        ((permutations k p.2).map (p.1 :: ·)).length = (l.length - 1).descFactorial k := by
      intro p hp
      rw [List.length_map, ih p.2]
      have := mem_removeOne_rest_length l p hp
      congr 1
      omega
    rw [permutations, length_flatMap_const _ _ _ hconst, removeOne_length]
    cases l with
    | nil => simp
    | cons a t =>
      simp only [List.length_cons, Nat.add_sub_cancel]
      rw [Nat.succ_descFactorial_succ]

theorem mem_permutations_length {α : Type _} (k : Nat) :
    ∀ (l c : List α), c ∈ permutations k l → c.length = k := by
  induction k with
  | zero =>
    intro l c hc
    rw [permutations] at hc
    simp only [List.mem_singleton] at hc
    simp [hc]
  | succ k ih =>
    intro l c hc
    rw [permutations] at hc
    simp only [List.mem_flatMap, List.mem_map] at hc
    obtain ⟨p, hp, q, hq, rfl⟩ := hc
    simp [ih p.2 q hq]

theorem combinations_length {α : Type _} :
    ∀ (l : List α) (k : Nat), (combinations k l).length = l.length.choose k := by
  intro l
  induction l with
  | nil =>
    intro k
    cases k with
    | zero => rfl
    | succ k => rfl
  | cons a t ih =>
    intro k
    cases k with
    | zero => rfl
    | succ k =>
      show ((combinations k t).map (a :: ·) ++ combinations (k + 1) t).length = _
      rw [List.length_append, List.length_map, ih k, ih (k + 1), List.length_cons,
        Nat.choose_succ_succ]

theorem build_secondary_items_length (layers : List Layer) (secondaries : List PathA) :
    (build_secondary_items layers secondaries).length =
      secondaries.length.descFactorial (get_secondary_layers layers).length *
        (get_secondary_layers layers).length := by
  unfold build_secondary_items
  dsimp only
  rw [length_flatMap_const _ _ (get_secondary_layers layers).length ?_, permutations_length]
  intro c hc
  rw [List.length_zipWith, mem_permutations_length _ _ c hc, min_self]

theorem flatMap_map_length {α β γ : Type _} (l1 : List α) (l2 : List β) (g : α → β → γ) :
    (l1.flatMap fun a => l2.map (g a)).length = l1.length * l2.length :=
  length_flatMap_const l1 _ l2.length (fun a _ => List.length_map l2 (g a))

theorem build_primary_items_length (layers : List Layer) (primaries : List PathA)
    (hp : (get_primary_layer layers).isSome) :
    (build_primary_items layers primaries).length = primaries.length := by
  obtain ⟨pl, hpl⟩ := Option.isSome_iff_exists.mp hp
  unfold build_primary_items
  rw [hpl]
  exact List.length_map _ _

theorem build_presentation_items_length (layers : List Layer) (presentations : List PathA)
    (hr : (get_presentation_layer layers).isSome) :
    (build_presentation_items layers presentations).length = presentations.length := by
  obtain ⟨pl, hpl⟩ := Option.isSome_iff_exists.mp hr
  unfold build_presentation_items
  rw [hpl]
  exact List.length_map _ _

/-- Claim C1 (amended): with both axes enabled, `compose` yields exactly
`p × r × C(k·P(s,k), k)` compositions — `combinations` is applied to the
*flattened* stream of `build_secondary_items` (which holds `P(s,k)` whole
permutations, i.e. `k·P(s,k)` items), not to permutation groups — which
equals the claimed `p × r × P(s,k)` only for `k ≤ 1`; with secondaries
disabled it yields `p × r`; and with `s < k` (secondaries enabled) it yields
zero. -/
theorem c1_compose_cardinality (layers : List Layer)
    (primaries secondaries presentations : List PathA)
    (hp : (get_primary_layer layers).isSome)
    (hr : (get_presentation_layer layers).isSome) :
    ((compose true true layers primaries secondaries presentations).length =
      primaries.length * presentations.length *
        Nat.choose
          (secondaries.length.descFactorial (get_secondary_layers layers).length *
            (get_secondary_layers layers).length)
          (get_secondary_layers layers).length) ∧
    ((compose true false layers primaries secondaries presentations).length =
      primaries.length * presentations.length) ∧
    (secondaries.length < (get_secondary_layers layers).length →
      (compose true true layers primaries secondaries presentations).length = 0) := by
  have hpp :
      ((build_primary_items layers primaries).flatMap
        (fun pi => (build_presentation_items layers presentations).map
          (fun pr => [pi, pr]))).length = primaries.length * presentations.length := by
    rw [flatMap_map_length, build_primary_items_length layers primaries hp,
      build_presentation_items_length layers presentations hr]
  have h1 : (compose true true layers primaries secondaries presentations).length =
      primaries.length * presentations.length *
        Nat.choose
          (secondaries.length.descFactorial (get_secondary_layers layers).length *
            (get_secondary_layers layers).length)
          (get_secondary_layers layers).length := by
    unfold compose
    dsimp only
    rw [if_pos rfl, if_pos rfl]
    dsimp only
    rw [length_flatMap_const _ _
      (((combinations (get_secondary_layers layers).length
        (build_secondary_items layers secondaries)).map some).length)
      (fun pp _ => List.length_map _ _)]
    rw [hpp, List.length_map, combinations_length, build_secondary_items_length]
  refine ⟨h1, ?_, ?_⟩
  · unfold compose
    dsimp only
    rw [if_pos rfl, if_neg (by simp)]
    dsimp only
    rw [flatMap_map_length, hpp]
    simp
  · intro hlt
    rw [h1]
    have hd : secondaries.length.descFactorial (get_secondary_layers layers).length = 0 :=
      Nat.descFactorial_eq_zero_iff_lt.mpr hlt
    rw [hd, Nat.zero_mul, Nat.choose_eq_zero_of_lt (by omega), Nat.mul_zero]

/-- Witness for C1 (amended) on a concrete template with `k = 2` secondary
layers and pools `p = 1`, `r = 1`, `s = 1 < k`. -/
theorem c1_compose_cardinality_witness :
    ((compose true true tplC1 [pathP1] [pathS1] [pathR1]).length =
      1 * 1 * Nat.choose (Nat.descFactorial 1 2 * 2) 2) ∧
    ((compose true false tplC1 [pathP1] [pathS1] [pathR1]).length = 1 * 1) ∧
    ((compose true true tplC1 [pathP1] [pathS1] [pathR1]).length = 0) := by
  have h := c1_compose_cardinality tplC1 [pathP1] [pathS1] [pathR1] (by decide) (by decide)
  exact ⟨h.1, h.2.1, h.2.2 (by decide)⟩

/-- Counterexample for C1 as stated: on a template with one PRIMARY, one
PRESENTATION and `k = 2` SECONDARY layers, with `p = 1`, `r = 1`, `s = 2`
and both axes enabled, the generator yields `6 = C(2·P(2,2), 2)`
compositions, not the claimed `p × r × P(s, k) = 1 × 1 × 2 = 2`. -/
theorem c1_compose_count_counterexample :
    (compose true true tplC1 [pathP1] [pathS1, pathS2] [pathR1]).length = 6 ∧
    1 * 1 * Nat.descFactorial 2 2 = 2 ∧ (6 : ℕ) ≠ 2 :=
  ⟨rfl, rfl, by decide⟩

end Composer

namespace Composer

/-! ### Claims C6 and C8: template lifecycle -/

theorem add_layer_ok_spec (st : TState) (pos : Position) (size : Size)
    (t : LayerType) (l : Layer) (st' : TState)
    (h : add_layer st pos size t = .ok (l, st')) :
    l = ⟨t, pos, size, st.counters t⟩ ∧
    (∀ t', st'.counters t' = if t' = t then st.counters t + 1 else st.counters t') ∧
    st'.layers = st.layers ++ [l] ∧
    st'.background = st.background ∧
    st'.loadedFromFile = st.loadedFromFile ∧
    st'.strRepr = st.strRepr ∧
    st'.baseSvg = st.baseSvg := by
  unfold add_layer at h
  split at h
  · split at h
    · exact absurd h (by simp)
    · dsimp only at h
      simp only [PyResult.ok.injEq, Prod.mk.injEq] at h
      obtain ⟨hl, hst⟩ := h
      subst hl
      subst hst
      exact ⟨rfl, fun t' => rfl, rfl, rfl, rfl, rfl, rfl⟩
  · split at h
    · exact absurd h (by simp)
    · dsimp only at h
      simp only [PyResult.ok.injEq, Prod.mk.injEq] at h
      obtain ⟨hl, hst⟩ := h
      subst hl
      subst hst
      exact ⟨rfl, fun t' => rfl, rfl, rfl, rfl, rfl, rfl⟩

theorem add_layer_raise_iff (st : TState) (pos : Position) (size : Size)
    (t : LayerType) :
    add_layer st pos size t = .raise .noBaseSvgError ↔
      st.baseSvg = none ∧ st.loadedFromFile = false := by
  have hcond : (st.baseSvg.isNone && !st.loadedFromFile) = true ↔
      st.baseSvg = none ∧ st.loadedFromFile = false := by
    rw [Bool.and_eq_true, Option.isNone_iff_eq_none, Bool.not_eq_eq_eq_not]
    simp
  unfold add_layer
  split <;>
  · constructor
    · intro h
      by_contra hc
      rw [← hcond] at hc
      rw [if_neg hc] at h
      exact absurd h (by simp)
    · intro hc
      rw [if_pos (hcond.mpr hc)]

/-- Claim C6 (amended): `add_layer` with a ZOOM_SELECTION or CROP_SELECTION
type does NOT bypass the background requirement — `_add_selection_layer`
raises the same no-background error as the content-layer path whenever no
base svg is set and the template was not loaded from file; for every layer
type, selection or content, the call fails exactly under that condition and
otherwise succeeds. -/
theorem c6_add_layer_requires_background (st : TState) (pos : Position)
    (size : Size) (t : LayerType) :
    (add_layer st pos size t = .raise .noBaseSvgError ↔
      st.baseSvg = none ∧ st.loadedFromFile = false) ∧
    (st.baseSvg ≠ none →
      ∃ l st', add_layer st pos size t = .ok (l, st')) := by
  refine ⟨add_layer_raise_iff st pos size t, ?_⟩
  intro hbg
  have hcond : ¬ ((st.baseSvg.isNone && !st.loadedFromFile) = true) := by
    intro hc
    rw [Bool.and_eq_true, Option.isNone_iff_eq_none] at hc
    exact hbg hc.1
  unfold add_layer
  by_cases hsel : (t = LayerType.CROP_SELECTION ∨ t = LayerType.ZOOM_SELECTION)
  · rw [if_pos hsel, if_neg hcond]
    exact ⟨_, _, rfl⟩
  · rw [if_neg hsel, if_neg hcond]
    exact ⟨_, _, rfl⟩

/-- Witness for C6 (amended): with a background set, adding a ZOOM_SELECTION
layer succeeds; and on the fresh template the raise-condition iff is
discharged concretely. -/
theorem c6_add_layer_requires_background_witness :
    (∃ l st', add_layer stBg pos0 size0 .ZOOM_SELECTION = .ok (l, st')) ∧
    add_layer initTState pos0 size0 .PRIMARY = .raise .noBaseSvgError :=
  ⟨(c6_add_layer_requires_background stBg pos0 size0 .ZOOM_SELECTION).2 (by
      rw [show stBg.baseSvg = some ⟨1500, 1500, ⟨"bg", ".png"⟩⟩ from rfl]
      simp),
    (c6_add_layer_requires_background initTState pos0 size0 .PRIMARY).1.mpr
      ⟨rfl, rfl⟩⟩

/-- Counterexample for C6 as stated: on a fresh template with no background
(and not loaded from file), `add_layer` with ZOOM_SELECTION does NOT succeed:
it raises the no-background error, same as a content type. -/
theorem c6_selection_layer_needs_background :
    add_layer initTState pos0 size0 .ZOOM_SELECTION = .raise .noBaseSvgError ∧
    add_layer initTState pos0 size0 .CROP_SELECTION = .raise .noBaseSvgError :=
  ⟨rfl, rfl⟩

/-- Claim C8 (amended): `render_to_bytes` memoizes its first built markup in
`__str_representation`, and NO mutation invalidates that memo: after
`add_layer`, `set_background`, `remove_background` or a layer removal, the
cached markup survives and `render_to_bytes` keeps returning it. -/
theorem c8_render_memo_never_invalidated (st : TState) (m : Markup)
    (h : st.strRepr = some m) :
    render_to_bytes st = .ok (m, st) ∧
    (∀ pos size t l st', add_layer st pos size t = .ok (l, st') →
      st'.strRepr = some m) ∧
    (∀ p sz e, (set_background st p sz e).strRepr = some m) ∧
    (remove_background st).strRepr = some m ∧
    (∀ idx, (remove_layer st idx).strRepr = some m) := by
  refine ⟨?_, ?_, fun p sz e => h, h, fun idx => h⟩
  · unfold render_to_bytes
    rw [h]
  · intro pos size t l st' hok
    rw [(add_layer_ok_spec st pos size t l st' hok).2.2.2.2.2.1]
    exact h

/-- Witness for C8 (amended) on the concrete cached state `stC8b`. -/
theorem c8_render_memo_never_invalidated_witness :
    render_to_bytes stC8b = .ok (mC8, stC8b) ∧ stC8c.strRepr = some mC8 :=
  ⟨(c8_render_memo_never_invalidated stC8b mC8 rfl).1,
    (c8_render_memo_never_invalidated stC8b mC8 rfl).2.1 pos0 size0
      LayerType.PRIMARY ⟨LayerType.PRIMARY, pos0, size0, stC8b.counters LayerType.PRIMARY⟩
      stC8c rfl⟩

/-- Counterexample for C8 as stated: set a background, render once (caching
`mC8`, which holds no layer snippet), add a PRIMARY layer — `render_to_bytes`
still returns the cached `mC8`, while the markup built from the current
state contains the new layer's snippet; the claimed invalidation on mutation
does not exist. -/
theorem c8_render_to_bytes_stale :
    add_layer stC8b pos0 size0 .PRIMARY =
      .ok (⟨LayerType.PRIMARY, pos0, size0, stC8b.counters LayerType.PRIMARY⟩, stC8c) ∧
    render_to_bytes stC8c = .ok (mC8, stC8c) ∧
    build_svg_final_figure stC8c.baseSvg stC8c.layers =
      .ok ⟨⟨1500, 1500, ⟨"bg", ".png"⟩⟩,
        [Layer.xml ⟨LayerType.PRIMARY, pos0, size0, 0⟩]⟩ ∧
    (⟨⟨1500, 1500, ⟨"bg", ".png"⟩⟩,
        [Layer.xml ⟨LayerType.PRIMARY, pos0, size0, 0⟩]⟩ : Markup) ≠ mC8 := by
  refine ⟨rfl, rfl, rfl, ?_⟩
  intro hcontra
  have : ([Layer.xml ⟨LayerType.PRIMARY, pos0, size0, 0⟩] : List LayerXml) = [] :=
    congrArg Markup.injected hcontra
  exact absurd this (by simp)

end Composer

namespace Composer

/-! ### Claim C9: ordinal and id uniqueness across a session -/

theorem runOps_nil (st : TState) : runOps st [] = (st, []) := rfl

theorem runOps_cons (st : TState) (op : TOp) (ops : List TOp) :
    runOps st (op :: ops) =
      ((runOps (stepOp st op).1 ops).1,
        (stepOp st op).2.toList ++ (runOps (stepOp st op).1 ops).2) := rfl

theorem decDigitChar_inj_lt :
    ∀ d1 < 10, ∀ d2 < 10, decDigitChar d1 = decDigitChar d2 → d1 = d2 := by
  decide

theorem map_decDigitChar_inj :
    ∀ (l1 l2 : List ℕ), (∀ x ∈ l1, x < 10) → (∀ x ∈ l2, x < 10) →
      l1.map decDigitChar = l2.map decDigitChar → l1 = l2 := by
  intro l1
  induction l1 with
  | nil =>
    intro l2 _ _ h
    cases l2 with
    | nil => rfl
    | cons b u => simp at h
  | cons a t ih =>
    intro l2 h1 h2 h
    cases l2 with
    | nil => simp at h
    | cons b u =>
      simp only [List.map_cons, List.cons.injEq] at h
      have ha := decDigitChar_inj_lt a (h1 a (List.mem_cons_self a t))
        b (h2 b (List.mem_cons_self b u)) h.1
      rw [ha, ih u (fun x hx => h1 x (List.mem_cons_of_mem a hx))
        (fun x hx => h2 x (List.mem_cons_of_mem b hx)) h.2]

theorem decChars_inj : ∀ (m n : ℕ), decChars m = decChars n → m = n := by
  have key : ∀ n : ℕ, n ≠ 0 →
      ¬ (['0'] = ((Nat.digits 10 n).map decDigitChar).reverse) := by
    intro n hn h
    have hlen : (Nat.digits 10 n).length = 1 := by
      have := congrArg List.length h
      simpa using this.symm
    obtain ⟨d, hd⟩ := List.length_eq_one.mp hlen
    rw [hd] at h
    simp only [List.map_cons, List.map_nil, List.reverse_cons, List.reverse_nil,
      List.nil_append, List.cons.injEq, and_true] at h
    have hdlt : d < 10 :=
      Nat.digits_lt_base (by norm_num) (by rw [hd]; exact List.mem_cons_self d [])
    have hd0 : d = 0 :=
      decDigitChar_inj_lt d hdlt 0 (by norm_num) (by
        rw [← h]; rfl)
    have hn0 : n = 0 := by
      have := Nat.ofDigits_digits 10 n
      rw [hd, hd0] at this
      simpa [Nat.ofDigits] using this.symm
    exact hn hn0
  intro m n h
  unfold decChars at h
  by_cases hm : m = 0 <;> by_cases hn : n = 0
  · rw [hm, hn]
  · rw [if_pos hm, if_neg hn] at h
    exact absurd h (key n hn)
  · rw [if_neg hm, if_pos hn] at h
    exact absurd h.symm (key m hm)
  · rw [if_neg hm, if_neg hn] at h
    have hmap := List.reverse_injective h
    have hdig := map_decDigitChar_inj (Nat.digits 10 m) (Nat.digits 10 n)
      (fun x hx => Nat.digits_lt_base (by norm_num) hx)
      (fun x hx => Nat.digits_lt_base (by norm_num) hx) hmap
    have := congrArg (Nat.ofDigits 10) hdig
    rwa [Nat.ofDigits_digits, Nat.ofDigits_digits] at this

theorem append_dash_inj :
    ∀ (n1 n2 d1 d2 : List Char), (∀ c ∈ n1, c ≠ '-') → (∀ c ∈ n2, c ≠ '-') →
      n1 ++ '-' :: d1 = n2 ++ '-' :: d2 → n1 = n2 ∧ d1 = d2 := by
  intro n1
  induction n1 with
  | nil =>
    intro n2 d1 d2 _ h2 h
    cases n2 with
    | nil => simpa using h
    | cons b u =>
      simp only [List.nil_append, List.cons_append, List.cons.injEq] at h
      exact absurd h.1.symm (h2 b (List.mem_cons_self b u))
  | cons a t ih =>
    intro n2 d1 d2 h1 h2 h
    cases n2 with
    | nil =>
      simp only [List.cons_append, List.nil_append, List.cons.injEq] at h
      exact absurd h.1 (h1 a (List.mem_cons_self a t))
    | cons b u =>
      simp only [List.cons_append, List.cons.injEq] at h
      obtain ⟨hab, h'⟩ := h
      obtain ⟨he, hd⟩ := ih u d1 d2 (fun c hc => h1 c (List.mem_cons_of_mem a hc))
        (fun c hc => h2 c (List.mem_cons_of_mem b hc)) h'
      exact ⟨by rw [hab, he], hd⟩

theorem pyName_no_dash : ∀ (t : LayerType), ∀ c ∈ t.pyName.data, c ≠ '-' := by
  intro t
  cases t <;> decide

theorem pyName_inj : ∀ (t1 t2 : LayerType), t1.pyName = t2.pyName → t1 = t2 := by
  intro t1 t2 h
  cases t1 <;> cases t2 <;> first | rfl | exact absurd h (by decide)

theorem typed_id_inj (pre : String) (t1 t2 : LayerType) (o1 o2 : ℕ)
    (h : pre ++ t1.pyName ++ "-" ++ decString o1 =
      pre ++ t2.pyName ++ "-" ++ decString o2) :
    t1 = t2 ∧ o1 = o2 := by
  have hd := congrArg String.data h
  simp only [String.data_append] at hd
  simp only [List.append_assoc, List.singleton_append] at hd
  have h2 := List.append_cancel_left hd
  obtain ⟨hname, hdig⟩ := append_dash_inj _ _ _ _ (pyName_no_dash t1)
    (pyName_no_dash t2) h2
  exact ⟨pyName_inj t1 t2 (String.ext hname), decChars_inj o1 o2 hdig⟩

theorem stepOp_spec (st : TState) (op : TOp) :
    ((stepOp st op).2 = none ∧ (∀ t, (stepOp st op).1.counters t = st.counters t) ∧
      (stepOp st op).1.layers ⊆ st.layers) ∨
    (∃ l, (stepOp st op).2 = some l ∧ l.ord = st.counters l.type ∧
      (∀ t, (stepOp st op).1.counters t =
        if t = l.type then st.counters l.type + 1 else st.counters t) ∧
      (stepOp st op).1.layers = st.layers ++ [l]) := by
  cases op with
  | addLayer pos size t =>
    cases hres : add_layer st pos size t with
    | raise e =>
      left
      have h2 : stepOp st (TOp.addLayer pos size t) = (st, none) := by
        simp [stepOp, hres]
      rw [h2]
      exact ⟨rfl, fun _ => rfl, List.Subset.refl _⟩
    | ok p =>
      right
      obtain ⟨l, st'⟩ := p
      have hs := add_layer_ok_spec st pos size t l st' hres
      have h2 : stepOp st (TOp.addLayer pos size t) = (st', some l) := by
        simp [stepOp, hres]
      rw [h2]
      refine ⟨l, rfl, ?_, ?_, ?_⟩
      · rw [hs.1]
      · intro t'
        rw [hs.2.1 t', hs.1]
      · exact hs.2.2.1
  | removeLayer idx =>
    left
    exact ⟨rfl, fun _ => rfl, List.eraseIdx_subset _ _⟩
  | setBackground p size e =>
    left
    exact ⟨rfl, fun _ => rfl, List.Subset.refl _⟩
  | removeBackground =>
    left
    exact ⟨rfl, fun _ => rfl, List.Subset.refl _⟩

theorem runOps_spec :
    ∀ (ops : List TOp) (st : TState),
      ((runOps st ops).2.map (fun l => (l.type, l.ord))).Nodup ∧
      (∀ l ∈ (runOps st ops).2, st.counters l.type ≤ l.ord) ∧
      (∀ t, st.counters t ≤ (runOps st ops).1.counters t) ∧
      ((runOps st ops).1.layers ⊆ st.layers ++ (runOps st ops).2) := by
  intro ops
  induction ops with
  | nil =>
    intro st
    refine ⟨by simp [runOps_nil], by simp [runOps_nil], fun t => le_refl _, ?_⟩
    rw [runOps_nil]
    simp
  | cons op ops ih =>
    intro st
    rw [runOps_cons]
    dsimp only
    obtain ⟨ihnd, ihord, ihmono, ihlay⟩ := ih (stepOp st op).1
    rcases stepOp_spec st op with ⟨hnone, hcnt, hsub⟩ | ⟨l, hsome, hord, hcnt, hlay⟩
    · rw [hnone]
      simp only [Option.toList_none, List.nil_append]
      refine ⟨ihnd, ?_, ?_, ?_⟩
      · intro x hx
        have := ihord x hx
        rw [hcnt x.type] at this
        exact this
      · intro t
        have := ihmono t
        rw [hcnt t] at this
        exact this
      · intro x hx
        rcases List.mem_append.mp (ihlay hx) with hx1 | hx2
        · exact List.mem_append_left _ (hsub hx1)
        · exact List.mem_append_right _ hx2
    · rw [hsome]
      simp only [Option.toList_some, List.singleton_append]
      have hmono : ∀ t, st.counters t ≤ (stepOp st op).1.counters t := by
        intro t
        rw [hcnt t]
        by_cases ht : t = l.type
        · rw [if_pos ht, ht]
          omega
        · rw [if_neg ht]
      refine ⟨?_, ?_, ?_, ?_⟩
      · rw [List.map_cons, List.nodup_cons]
        refine ⟨?_, ihnd⟩
        intro hmem
        simp only [List.mem_map] at hmem
        obtain ⟨x, hx, hpair⟩ := hmem
        have hx1 : x.type = l.type := congrArg Prod.fst hpair
        have hx2 : x.ord = l.ord := congrArg Prod.snd hpair
        have h1 := ihord x hx
        rw [hcnt x.type, hx1, if_pos rfl] at h1
        omega
      · intro x hx
        rcases List.mem_cons.mp hx with rfl | hx2
        · rw [hord]
        · exact le_trans (hmono x.type) (ihord x hx2)
      · intro t
        exact le_trans (hmono t) (ihmono t)
      · intro x hx
        rcases List.mem_append.mp (ihlay hx) with hx1 | hx2
        · rw [hlay] at hx1
          rcases List.mem_append.mp hx1 with hx3 | hx4
          · exact List.mem_append_left _ hx3
          · rcases List.mem_singleton.mp hx4 with rfl
            exact List.mem_append_right _ (List.mem_cons_self _ _)
        · exact List.mem_append_right _ (List.mem_cons_of_mem _ hx2)

/-- Claim C9: over any session of template operations starting from a fresh
process, every constructed Layer's `(type, ordinal)` pair is unique, the
derived `layer_id` and `image_id` strings are unique across the whole
lifetime (removals never free an ordinal for reuse because
`remove_layer_for_item` does not touch `_type_counter`), and the template's
current layers all come from that construction history. -/
theorem c9_ordinal_uniqueness (ops : List TOp) :
    (((runOps initTState ops).2.map (fun l => (l.type, l.ord))).Nodup) ∧
    (((runOps initTState ops).2.map Layer.layer_id).Nodup) ∧
    (((runOps initTState ops).2.map Layer.image_id).Nodup) ∧
    ((runOps initTState ops).1.layers ⊆ (runOps initTState ops).2) := by
  have h := runOps_spec ops initTState
  have hinj1 : Function.Injective
      (fun p : LayerType × ℕ => "layer-" ++ p.1.pyName ++ "-" ++ decString p.2) := by
    intro p q hpq
    obtain ⟨h1, h2⟩ := typed_id_inj "layer-" p.1 q.1 p.2 q.2 hpq
    exact Prod.ext h1 h2
  have hinj2 : Function.Injective
      (fun p : LayerType × ℕ => "image-" ++ p.1.pyName ++ "-" ++ decString p.2) := by
    intro p q hpq
    obtain ⟨h1, h2⟩ := typed_id_inj "image-" p.1 q.1 p.2 q.2 hpq
    exact Prod.ext h1 h2
  refine ⟨h.1, ?_, ?_, ?_⟩
  · have hmm : (runOps initTState ops).2.map Layer.layer_id =
        ((runOps initTState ops).2.map (fun l => (l.type, l.ord))).map
          (fun p => "layer-" ++ p.1.pyName ++ "-" ++ decString p.2) := by
      rw [List.map_map]
      rfl
    rw [hmm]
    exact h.1.map hinj1
  · have hmm : (runOps initTState ops).2.map Layer.image_id =
        ((runOps initTState ops).2.map (fun l => (l.type, l.ord))).map
          (fun p => "image-" ++ p.1.pyName ++ "-" ++ decString p.2) := by
      rw [List.map_map]
      rfl
    rw [hmm]
    exact h.1.map hinj2
  · intro x hx
    have := h.2.2.2 hx
    simpa [initTState] using this

end Composer
